import Mathlib

/-!
Shallow embedding of the move-classification and tally-aggregation core of
`src/chess_engine/main.py` (a PGN analysis tool driven by an external UCI
engine, an opening book and Syzygy tablebases).

Modelling conventions:
* Moves are opaque identifiers (`Nat`); board mechanics (push/pop, SAN,
  legality) belong to the external `python-chess` collaborator and appear
  as fields of a per-position environment `PosEnv`.
* Engine scores are exact rationals/integers; Python's float divisions
  (`score/100`, `loss` thresholds) are modelled over `ℚ`.
* External lookups that the source wraps in `try/except` are modelled as
  `Option` results, `none` standing for a raised-and-swallowed exception.
* Every function that calls `engine.analyse` additionally returns the list
  of depth limits it passed to the engine (ghost instrumentation; the
  first component is the source function's visible result).
-/

namespace ChessEngine

abbrev Move := Nat

/-- `python-chess` relative score: a centipawn value or a mate distance
(positive means the side to move mates). -/
inductive RelScore
  | cp (v : Int)
  | mate (n : Int)
  deriving DecidableEq, Repr

/-- `pov_score.relative.is_mate()` -/
def RelScore.isMate : RelScore → Bool
  | .cp _ => false
  | .mate _ => true

/-- `pov_score.relative.score()`: `None` on a mate score. -/
def RelScore.score : RelScore → Option Int
  | .cp v => some v
  | .mate _ => none

/-- `pov_score.relative.score(mate_score=m)` -/
def RelScore.scoreMate (m : Int) : RelScore → Int
  | .cp v => v
  | .mate n => if 0 < n then m - n else -m - n

/-- The dictionary `engine.analyse` returns: `score`, `depth` (may be
absent) and the principal variation `pv`. -/
structure AnalysisInfo where
  score : RelScore
  depth : Option Nat
  pv : List Move

/-- Run-wide configuration: the `--depth` value, the resolved
`book_path` (`None` or a path) together with the filesystem fact
`book_path.exists()`, and whether a Syzygy tablebase handle was opened. -/
structure Config where
  depth : Nat
  bookPath : Option String
  bookPathExists : Bool
  syzygyEnabled : Bool

/-- Per-position external data: everything the source reads from the
board, the book reader, the tablebase handle and the engine at one
position. `tbProbeRoot` is the list of first components of
`syzygy_tb.probe_root(board)` (`none` = exception); `bookFind` is
`any(book.find(board))` (`none` = exception); `probeTB` is the
human-readable WDL outcome of `probe_tablebase` when it returns one
(its internal guards — board validity, game-over, variant-end — are
external `python-chess` predicates folded into this field);
`engineInfo d` is `engine.analyse(board, Limit(depth=d))` and
`bestReplyInfo d` the same after `board.push(best_move)`. -/
structure PosEnv where
  pieceCount : Nat
  legalMoveCount : Nat
  tbProbeRoot : Option (List Move)
  bookFind : Option Bool
  probeTB : Option String
  san : Move → String
  engineInfo : Nat → AnalysisInfo
  bestReplyInfo : Nat → AnalysisInfo

/-- Tablebase section of `get_accuracy` (main.py lines 130-140): probe
only when a handle exists and at most 5 pieces remain; an exception or an
empty root-move list falls through (`none`). -/
def tbClassify (cfg : Config) (p : PosEnv) (move : Move) : Option String :=
  if cfg.syzygyEnabled ∧ p.pieceCount ≤ 5 then
    match p.tbProbeRoot with
    | some rootMoves =>
        if rootMoves ≠ [] then
          some (if move ∈ rootMoves then "Tablebase" else "Blunder")
        else none
    | none => none
  else none

/-- Book section of `get_accuracy` (main.py lines 142-148): a hit needs a
non-`None` existing `book_path` and a found entry; exceptions are
swallowed. -/
def bookHit (cfg : Config) (p : PosEnv) : Bool :=
  if cfg.bookPath.isSome ∧ cfg.bookPathExists then
    match p.bookFind with
    | some b => b
    | none => false
  else false

/-- main.py line 156: `prev_score is not None and abs(prev_score / 100) > 5.0`. -/
def decisiveBefore (prevScore : Option Int) : Bool :=
  match prevScore with
  | some p => decide (5 < |(p : ℚ) / 100|)
  | none => false

/-- The threshold chain of `get_accuracy` (main.py lines 178-192). -/
def thresholdLabel (loss : ℚ) : String :=
  if loss ≤ 0 then "Excellent"
  else if loss < 0.35 then "Excellent"
  else if loss < 2.0 then "Good"
  else if loss < 2.5 then "Inaccuracy"
  else if loss < 3.5 then "Mistake"
  else if loss < 6.0 then "Miss"
  else "Blunder"

/-- The `elif best_move:` branch of `get_accuracy` (main.py lines
160-194): re-evaluate after the engine's best move at the hardcoded
depth limit 15, bail out on mate-magnitude scores, else map the signed
loss through the thresholds; a null `prev_score` yields "-". -/
def bestDiffersBranch (p : PosEnv) (moveNumber : Nat) (cp : Int)
    (prevScore : Option Int) : String × List Nat :=
  let bestInfo := p.bestReplyInfo 15
  if bestInfo.score.isMate ∨ 10000 < |cp| then ("-", [15])
  else
    match prevScore with
    | some prev =>
      let loss : ℚ :=
        if moveNumber % 2 = 1 then ((prev : ℚ) - (cp : ℚ)) / 100
        else ((cp : ℚ) - (prev : ℚ)) / 100
      (thresholdLabel loss, [15])
    | none => ("-", [15])

/-- `get_accuracy` (main.py lines 126-196). Returns the label and the
list of depth limits of the `engine.analyse` calls it made. -/
def get_accuracy (cfg : Config) (p : PosEnv) (moveNumber : Nat) (move : Move)
    (bestMove : Option Move) (evalCp : Option Int) (prevScore : Option Int) :
    String × List Nat :=
  match tbClassify cfg p move with
  | some label => (label, [])
  | none =>
    if bookHit cfg p then ("Book", [])
    else
      match evalCp with
      | none => ("-", [])
      | some cp =>
        if p.legalMoveCount = 1 then ("Best", [])
        else if decisiveBefore prevScore then ("-", [])
        else
          match bestMove with
          | some bm =>
            if move = bm then ("Best", [])
            else bestDiffersBranch p moveNumber cp prevScore
          | none => ("-", [])

/-- The spec's rule-7 threshold table, written from the spec's words:
`loss <= 0` → Excellent; `< 0.35` → Excellent; `< 2.0` → Good;
`< 2.5` → Inaccuracy; `< 3.5` → Mistake; `< 6.0` → Miss; otherwise
Blunder. Used as the refinement target for the classifier's rule-7
branch. -/
def lossLabel (loss : ℚ) : String :=
  if loss ≤ 0 then "Excellent"
  else if loss < 0.35 then "Excellent"
  else if loss < 2.0 then "Good"
  else if loss < 2.5 then "Inaccuracy"
  else if loss < 3.5 then "Mistake"
  else if loss < 6.0 then "Miss"
  else "Blunder"

/-- The spec's signed loss: for White `(scoreBefore - scoreAfter)/100`,
for Black `(scoreAfter - scoreBefore)/100`; odd 1-based ply numbers are
White's moves. -/
def signedLoss (moveNumber : Nat) (prev cp : Int) : ℚ :=
  if moveNumber % 2 = 1 then ((prev : ℚ) - (cp : ℚ)) / 100
  else ((cp : ℚ) - (prev : ℚ)) / 100

/-- The key set of `init_summary_dict` (main.py lines 315-328), in
declaration order. Note it has no "Tablebase" key. -/
def summaryKeys : List String :=
  ["Brilliant", "Great", "Best", "Excellent", "Good", "Book",
   "Inaccuracy", "Mistake", "Miss", "Blunder", "-"]

/-- A per-player tally. The Python dict is modelled as its count
function; its key set never changes after `init_summary_dict` (the only
mutation is `+= 1` on an existing key), so key membership is membership
in `summaryKeys`. -/
abbrev Summary := String → Nat

/-- `init_summary_dict`: every label count starts at zero. -/
def init_summary_dict : Summary := fun _ => 0

/-- `summary[k] += 1` -/
def incr (s : Summary) (k : String) : Summary :=
  fun k2 => if k2 = k then s k2 + 1 else s k2

/-- main.py lines 352-355: increment the returned label's counter when
it is a dict key, else the "-" (Unclassified) counter. -/
def tallyAdd (s : Summary) (label : String) : Summary :=
  if label ∈ summaryKeys then incr s label else incr s "-"

/-- Total number of moves recorded in a tally. -/
def tallyTotal (s : Summary) : Nat :=
  (summaryKeys.map s).sum

/-- `info.get('depth', '-')` rendered through `str(...)`. -/
def depthDisplay : Option Nat → String
  | some d => toString d
  | none => "-"

/-- Result tuple of `get_best_move_info`. -/
structure BestMoveInfo where
  bestMove : Option Move
  bestMoveStr : String
  povScore : Option RelScore
  depthStr : String

/-- `get_best_move_info` (main.py lines 103-124): a successful non-empty
tablebase root probe (handle present, at most 5 pieces) short-circuits
with the first root move and depth "TB"; otherwise the engine is asked
at the hardcoded depth limit 15. Second component: depth limits of the
`engine.analyse` calls made. -/
def get_best_move_info (cfg : Config) (p : PosEnv) : BestMoveInfo × List Nat :=
  match (if cfg.syzygyEnabled ∧ p.pieceCount ≤ 5 then p.tbProbeRoot else none) with
  | some (bm :: _rest) =>
      (⟨some bm, p.san bm, none, "TB"⟩, [])
  | _ =>
      let info := p.engineInfo 15
      let bestMove := info.pv.head?
      let bestMoveStr := match bestMove with | some bm => p.san bm | none => "-"
      (⟨bestMove, bestMoveStr, some info.score, depthDisplay info.depth⟩, [15])

/-- `probe_tablebase` (main.py lines 64-80): yields nothing without a
tablebase handle; its other guards (board validity, game over, variant
end, probe exceptions) are external `python-chess` predicates folded
into `PosEnv.probeTB`. -/
def probe_tablebase (cfg : Config) (p : PosEnv) : Option String :=
  if cfg.syzygyEnabled then p.probeTB else none

/-- `process_move` (main.py lines 330-370), restricted to the tally and
classification effects (the rendered table row is presentation). Returns
the updated tally, the accuracy label, and the engine-query depth log. -/
def process_move (cfg : Config) (p : PosEnv) (mv : Move) (moveNumber : Nat)
    (prevScore : Option Int) (summary : Summary) : Summary × String × List Nat :=
  match probe_tablebase cfg p with
  | some _wdl =>
      let r1 := get_best_move_info cfg p
      let r2 := get_accuracy cfg p moveNumber mv r1.1.bestMove none prevScore
      (tallyAdd summary r2.1, r2.1, r1.2 ++ r2.2)
  | none =>
      let info := p.engineInfo cfg.depth
      let bestMove := info.pv.head?
      let evalCp := info.score.score
      let r2 := get_accuracy cfg p moveNumber mv bestMove evalCp prevScore
      (tallyAdd summary r2.1, r2.1, cfg.depth :: r2.2)

/-- `get_eval_cp` (main.py lines 372-376): evaluate the current position
at the configured depth; `None` on a mate score. -/
def get_eval_cp (cfg : Config) (p : PosEnv) : Option Int × List Nat :=
  ((p.engineInfo cfg.depth).score.score, [cfg.depth])

/-- One mainline move together with the external data of the position it
was played from. -/
structure GameMove where
  mv : Move
  pos : PosEnv

/-- The loop body of `analyze_game` (main.py lines 302-313): odd 1-based
ply numbers update the white tally, even ones the black tally;
`prev_score` is re-evaluated on the pre-move board after each move.
Returns both tallies, the accuracy-label stream and the engine-query
depth log. -/
def analyzeLoop (cfg : Config) :
    List GameMove → Nat → Option Int → Summary → Summary →
    Summary × Summary × List String × List Nat
  | [], _, _, ws, bs => (ws, bs, [], [])
  | gm :: rest, n, prev, ws, bs =>
      let summary := if n % 2 = 1 then ws else bs
      let r := process_move cfg gm.pos gm.mv n prev summary
      let e := get_eval_cp cfg gm.pos
      let ws2 := if n % 2 = 1 then r.1 else ws
      let bs2 := if n % 2 = 1 then bs else r.1
      let rec_ := analyzeLoop cfg rest (n + 1) e.1 ws2 bs2
      (rec_.1, rec_.2.1, r.2.1 :: rec_.2.2.1, r.2.2 ++ e.2 ++ rec_.2.2.2)

/-- `analyze_game` (main.py lines 290-313) with fresh summaries, as in
`main`. -/
def analyze_game (cfg : Config) (moves : List GameMove) :
    Summary × Summary × List String × List Nat :=
  analyzeLoop cfg moves 1 none init_summary_dict init_summary_dict

/-- The per-label weights of `build_summary_table` (main.py lines
402-414), in source order. -/
def accuracy_values : List (String × Nat) :=
  [("Brilliant", 100), ("Great", 95), ("Best", 90), ("Excellent", 85),
   ("Good", 80), ("Book", 80), ("Inaccuracy", 60), ("Mistake", 40),
   ("Miss", 20), ("Blunder", 0)]

/-- Python's `f"{x:.1f}"` on the (always nonnegative here) accuracy
value, modelled on exact rationals: round to one decimal and print. -/
def formatOneDec (q : ℚ) : String :=
  let n : Nat := (round (10 * q) : ℤ).toNat
  toString (n / 10) ++ "." ++ toString (n % 10)

/-- `compute_overall_accuracy` (main.py lines 415-424): accumulate
`count * weight` and `count` over exactly the ten weighted labels
("Tablebase" and "-" are not in `accuracy_values`), answer "N/A" on a
zero total, else the weighted average to one decimal. -/
def compute_overall_accuracy (s : Summary) : String :=
  let total := (accuracy_values.map (fun kv => s kv.1)).sum
  let weighted := (accuracy_values.map (fun kv => s kv.1 * kv.2)).sum
  if total = 0 then "N/A"
  else formatOneDec ((weighted : ℚ) / (total : ℚ)) ++ "%"

/-- `INCLUDED_BOOKS` (main.py lines 15-31). -/
def INCLUDED_BOOKS : List String :=
  ["Human", "Titans", "baron30", "varied", "Performance", "Book",
   "DCbook_large", "Elo2400", "KomodoVariety", "codekiddy", "final-book",
   "gavibook-small", "gavibook", "gm2600", "komodo"]

/-- The argparse result of `parse_args` (main.py lines 36-61). -/
structure Args where
  pgn_file : String
  depth : Nat
  book : String
  endgame : Bool

/-- `parse_args` modelled on the option level: each optional flag is
`none` when absent from the command line; argparse then supplies the
declared defaults `--depth 15`, `--book "Human"`, `--endgame False`. -/
def parse_args (pgnFile : String) (depthOpt : Option Nat)
    (bookOpt : Option String) (endgameFlag : Bool) : Args :=
  { pgn_file := pgnFile
    depth := depthOpt.getD 15
    book := bookOpt.getD "Human"
    endgame := endgameFlag }

/-- `resolve_book_path` (main.py lines 82-89); filesystem path
resolution is modelled as building the file name. -/
def resolve_book_path (bookArg : Option String) : Option String :=
  match bookArg with
  | none => none
  | some b => if b ∈ INCLUDED_BOOKS then some ("books/" ++ b ++ ".bin") else some b

/-- The configuration `main` (main.py lines 469-488) builds from the
parsed arguments, given the two filesystem facts it consults
(`book_path.exists()` and the tablebase directory check). -/
def configOfArgs (a : Args) (bookPathExists : Bool) (tbDirExists : Bool) : Config :=
  { depth := a.depth
    bookPath := resolve_book_path (some a.book)
    bookPathExists := bookPathExists
    syzygyEnabled := a.endgame && tbDirExists }

/-- Python `int(...)` on a rational: truncation toward zero. -/
def truncQ (q : ℚ) : Int := if 0 ≤ q then ⌊q⌋ else ⌈q⌉

/-- The `CustomBarColumn` split logic inlined in `get_progress_bar`
(main.py lines 205-213): clamp `completed/100` to [-1, 1] and fill each
half of the bar with truncation toward zero. Returns (white cells,
black cells). -/
def splitCells (completed : Int) (barLength : Nat) : Nat × Nat :=
  let half : Nat := barLength / 2
  let prog : ℚ := max (-1) (min 1 ((completed : ℚ) / 100))
  if 0 ≤ prog then
    let whiteBlocks : Nat := half + (truncQ ((half : ℚ) * prog)).toNat
    (whiteBlocks, barLength - whiteBlocks)
  else
    let blackBlocks : Nat := half + (truncQ ((half : ℚ) * (-prog))).toNat
    (barLength - blackBlocks, blackBlocks)

/-- The cell split of `get_progress_bar` (main.py lines 198-213): clamp
the score to [-300, 300], take `int` of its percentage, clamp to
[-100, 100], and split the bar around the midpoint. -/
def progressBlocks (cp : Int) (barLength : Nat) : Nat × Nat :=
  let maxCp : Int := 300
  let normScore : Int := max (-maxCp) (min maxCp cp)
  let completed0 : Int := truncQ ((normScore : ℚ) / (maxCp : ℚ) * 100)
  let completed : Int := max (-100) (min 100 completed0)
  splitCells completed barLength

/-- `"█" * n` -/
def blockStr (n : Nat) : String := String.mk (List.replicate n '█')

/-- `" " * n` -/
def spaceStr (n : Nat) : String := String.mk (List.replicate n ' ')

/-- `get_progress_bar` (main.py lines 198-221): a null score renders the
neutral half-filled yellow bar, otherwise the white/black split. -/
def get_progress_bar (evalCp : Option Int) (barLength : Nat) : String :=
  match evalCp with
  | some cp =>
      let wb := progressBlocks cp barLength
      "[white]" ++ blockStr wb.1 ++ "[black]" ++ blockStr wb.2 ++ "[/]"
  | none =>
      "[yellow]" ++ blockStr (barLength / 2) ++ "[/]" ++
        spaceStr (barLength - barLength / 2)

/-! Spec-side definitions, written from the spec's words, to be compared
with the embedded source. -/

/-- The weight table of spec §4.2. -/
def specWeight (l : String) : Nat :=
  if l = "Brilliant" then 100
  else if l = "Great" then 95
  else if l = "Best" then 90
  else if l = "Excellent" then 85
  else if l = "Good" then 80
  else if l = "Book" then 80
  else if l = "Inaccuracy" then 60
  else if l = "Mistake" then 40
  else if l = "Miss" then 20
  else 0

/-- The labels spec §4.2 includes in the weighted average ("Tablebase"
and "Unclassified" are excluded). -/
def weightedLabels : List String :=
  ["Brilliant", "Great", "Best", "Excellent", "Good", "Book",
   "Inaccuracy", "Mistake", "Miss", "Blunder"]

/-- Spec §4.2's accuracy: `(Σ count[label] × weight[label]) / (Σ
count[label])` over the weighted labels, one decimal place, "N/A" on a
zero denominator. -/
def specAccuracy (s : Summary) : String :=
  let den := (weightedLabels.map s).sum
  let num := (weightedLabels.map (fun k => s k * specWeight k)).sum
  if den = 0 then "N/A"
  else formatOneDec ((num : ℚ) / (den : ℚ)) ++ "%"

/-- Number of odd 1-based ply indices (White moves) among `len`
consecutive plies starting at index `n`. -/
def whiteMovesFrom : Nat → Nat → Nat
  | _, 0 => 0
  | n, len + 1 => (if n % 2 = 1 then 1 else 0) + whiteMovesFrom (n + 1) len

/-- Number of even 1-based ply indices (Black moves) among `len`
consecutive plies starting at index `n`. -/
def blackMovesFrom : Nat → Nat → Nat
  | _, 0 => 0
  | n, len + 1 => (if n % 2 = 1 then 0 else 1) + blackMovesFrom (n + 1) len

/-- A move for which neither the tablebase-eval path, the tablebase
classification rule, nor the book rule fires, the engine reports a
non-decisive centipawn score (magnitude at most 500, so rule 5 cannot
fire on the following move either) and the played move heads the
engine's principal variation. -/
def bestPlayedMove (cfg : Config) (gm : GameMove) : Prop :=
  probe_tablebase cfg gm.pos = none ∧
  tbClassify cfg gm.pos gm.mv = none ∧
  bookHit cfg gm.pos = false ∧
  (∃ cp : Int, (gm.pos.engineInfo cfg.depth).score = RelScore.cp cp ∧ |cp| ≤ 500) ∧
  (gm.pos.engineInfo cfg.depth).pv.head? = some gm.mv

/-! Concrete fixtures used by witnesses and counterexamples. -/

/-- A quiet middlegame position: no tablebase data, no book hit, 20
legal moves, centipawn scores everywhere. -/
def wPos : PosEnv :=
  { pieceCount := 32, legalMoveCount := 20, tbProbeRoot := none,
    bookFind := some false, probeTB := none, san := fun _ => "e4",
    engineInfo := fun _ => ⟨.cp 0, some 15, [1]⟩,
    bestReplyInfo := fun _ => ⟨.cp 30, some 15, [2]⟩ }

/-- Default configuration: depth 15, no book, no tablebase. -/
def wCfg : Config := ⟨15, none, false, false⟩

/-- Configuration with an existing opening book. -/
def cfgBook : Config := ⟨15, some "books/Human.bin", true, false⟩

/-- A book position with exactly one legal move. -/
def posBookForced : PosEnv :=
  { wPos with bookFind := some true, legalMoveCount := 1 }

/-- A non-book position with exactly one legal move. -/
def posForced : PosEnv := { wPos with legalMoveCount := 1 }

/-- Configuration with Syzygy tablebases enabled. -/
def cfgTB : Config := ⟨15, none, false, true⟩

/-- A 4-piece endgame position whose tablebase root probe returns the
single optimal move `7`. -/
def posTB : PosEnv :=
  { wPos with pieceCount := 4, tbProbeRoot := some [7] }

/-- Configuration parsed from a command line carrying `--depth 10`. -/
def cfg10 : Config := ⟨10, none, false, false⟩

/-- A position where the engine's best move (5) differs from the played
move (0). -/
def posC4 : PosEnv :=
  { wPos with engineInfo := fun _ => ⟨.cp 0, some 10, [5]⟩ }

/-- First game move for the depth scenario: plays 0 while the engine
prefers 5. -/
def gmC4 : GameMove := ⟨0, posC4⟩

/-- The parsed arguments of a command line that omits `--book`. -/
def argsNoBook : Args := parse_args "game.pgn" none none false

/-- The configuration `main` builds from `argsNoBook` when the resolved
book file exists on disk. -/
def cfgNoBook : Config := configOfArgs argsNoBook true false

/-- The configuration from a `--book`-less command line when the
resolved Human book file does not exist on disk. -/
def cfgNoBookMissing : Config := configOfArgs argsNoBook false false

/-- A position whose engine evaluation is +20 cp with best move 3. -/
def posW1 : PosEnv :=
  { wPos with engineInfo := fun _ => ⟨.cp 20, some 15, [3]⟩ }

/-- A position whose engine evaluation is -15 cp with best move 4. -/
def posB1 : PosEnv :=
  { wPos with engineInfo := fun _ => ⟨.cp (-15), some 15, [4]⟩ }

/-- A two-ply match in which each side plays the engine's best move. -/
def gameAllBest : List GameMove := [⟨3, posW1⟩, ⟨4, posB1⟩]

/-- The tally {Best: 2, Blunder: 1} of spec §8. -/
def tallyBestBlunder : Summary :=
  fun k => if k = "Best" then 2 else if k = "Blunder" then 1 else 0

/-! Helper lemmas. -/

theorem tbClassify_eq_some (cfg : Config) (p : PosEnv) (mv : Move) (l : String)
    (h : tbClassify cfg p mv = some l) : l = "Tablebase" ∨ l = "Blunder" := by
  unfold tbClassify at h
  split at h
  · split at h
    · split at h
      · split at h <;> simp_all
      · simp_all
    · simp_all
  · simp_all

theorem thresholdLabel_cases (q : ℚ) :
    thresholdLabel q ∈
      ["Excellent", "Good", "Inaccuracy", "Mistake", "Miss", "Blunder"] := by
  unfold thresholdLabel
  split_ifs <;> simp

theorem bestDiffersBranch_cases (p : PosEnv) (n : Nat) (cp : Int) (ps : Option Int) :
    (bestDiffersBranch p n cp ps).1 ∈
      ["-", "Excellent", "Good", "Inaccuracy", "Mistake", "Miss", "Blunder"] := by
  by_cases hm : (p.bestReplyInfo 15).score.isMate = true ∨ 10000 < |cp|
  · rcases ps with _ | prev <;> simp [bestDiffersBranch, hm]
  · rcases ps with _ | prev
    · simp [bestDiffersBranch, hm]
    · have := thresholdLabel_cases
        (if n % 2 = 1 then ((prev : ℚ) - (cp : ℚ)) / 100 else ((cp : ℚ) - (prev : ℚ)) / 100)
      simp only [bestDiffersBranch, hm, if_false, List.mem_cons, List.not_mem_nil,
        or_false] at this ⊢
      tauto

theorem get_accuracy_label_cases (cfg : Config) (p : PosEnv) (n : Nat) (mv : Move)
    (bm : Option Move) (ec ps : Option Int) :
    (get_accuracy cfg p n mv bm ec ps).1 ∈
      ["Tablebase", "Blunder", "Book", "-", "Best", "Excellent", "Good",
       "Inaccuracy", "Mistake", "Miss"] := by
  unfold get_accuracy
  rcases htb : tbClassify cfg p mv with _ | l
  · by_cases hb : bookHit cfg p
    · simp [hb]
    · rcases ec with _ | cp
      · simp [hb]
      · by_cases hleg : p.legalMoveCount = 1
        · simp [hb, hleg]
        · by_cases hdec : decisiveBefore ps
          · simp [hb, hleg, hdec]
          · rcases bm with _ | bmv
            · simp [hb, hleg, hdec]
            · by_cases hmv : mv = bmv
              · simp [hb, hleg, hdec, hmv]
              · have := bestDiffersBranch_cases p n cp ps
                simp only [List.mem_cons, List.not_mem_nil, or_false] at this
                simp only [hb, hleg, hdec, hmv, Bool.false_eq_true, if_false,
                  List.mem_cons, List.not_mem_nil, or_false]
                tauto
  · rcases tbClassify_eq_some cfg p mv l htb with h | h <;> simp [h]

/-! Claim theorems. -/

/-- C1: in the rule-7 branch (no tablebase or book match, scoreAfter
non-null, more than one legal move, scoreBefore non-decisive, played
move differs from the engine's best move, no mate-magnitude score,
scoreBefore non-null), the returned label is the spec's
ascending-threshold map of the signed loss, and each exact boundary
value falls on the worse side (0.35 → Good, 2.0 → Inaccuracy, 2.5 →
Mistake, 3.5 → Miss, 6.0 → Blunder), while any loss ≤ 0 is
Excellent. -/
theorem C1_rule7_thresholds (cfg : Config) (p : PosEnv) (n : Nat) (mv bm : Move)
    (cp prev : Int)
    (htb : tbClassify cfg p mv = none)
    (hbook : bookHit cfg p = false)
    (hleg : p.legalMoveCount ≠ 1)
    (hdec : decisiveBefore (some prev) = false)
    (hne : mv ≠ bm)
    (hmate : (p.bestReplyInfo 15).score.isMate = false)
    (hmag : ¬ (10000 < |cp|)) :
    get_accuracy cfg p n mv (some bm) (some cp) (some prev) =
      (lossLabel (signedLoss n prev cp), [15]) ∧
    lossLabel (35 / 100) = "Good" ∧ lossLabel 2 = "Inaccuracy" ∧
    lossLabel (5 / 2) = "Mistake" ∧ lossLabel (7 / 2) = "Miss" ∧
    lossLabel 6 = "Blunder" ∧ (∀ l : ℚ, l ≤ 0 → lossLabel l = "Excellent") := by
  refine ⟨?_, ?_, ?_, ?_, ?_, ?_, ?_⟩
  · unfold get_accuracy
    rw [htb]
    simp only [hbook, Bool.false_eq_true, if_false, hdec]
    rw [if_neg hleg, if_neg hne]
    unfold bestDiffersBranch
    rw [if_neg (by simp [hmate, hmag])]
    rfl
  · unfold lossLabel; norm_num
  · unfold lossLabel; norm_num
  · unfold lossLabel; norm_num
  · unfold lossLabel; norm_num
  · unfold lossLabel; norm_num
  · intro l hl; unfold lossLabel; simp [hl]

/-- C1 witness: with scoreBefore 35 cp and scoreAfter 0 cp on a White
move the signed loss is exactly 0.35 pawns and the classifier answers
"Good". -/
theorem C1_witness :
    get_accuracy wCfg wPos 1 0 (some 1) (some 0) (some 35) = ("Good", [15]) := by
  have h := C1_rule7_thresholds wCfg wPos 1 0 1 0 35 rfl rfl
    (by norm_num [wPos])
    (by simp only [decisiveBefore, decide_eq_false_iff_not]; norm_num [abs_le])
    (by norm_num) rfl (by norm_num [abs_le])
  rw [h.1]
  have hsl : signedLoss 1 35 0 = 35 / 100 := by unfold signedLoss; norm_num
  rw [hsl, h.2.1]

theorem book_label_needs_bookHit (cfg : Config) (p : PosEnv) (n : Nat) (mv : Move)
    (bm : Option Move) (ec ps : Option Int)
    (h : (get_accuracy cfg p n mv bm ec ps).1 = "Book") : bookHit cfg p = true := by
  by_contra hb
  simp only [Bool.not_eq_true] at hb
  unfold get_accuracy at h
  rcases htb : tbClassify cfg p mv with _ | l
  · rw [htb] at h
    simp only [hb, Bool.false_eq_true, if_false] at h
    rcases ec with _ | cp
    · simp at h
    · by_cases hleg : p.legalMoveCount = 1
      · simp [hleg] at h
      · by_cases hdec : decisiveBefore ps
        · simp [hleg, hdec] at h
        · simp only [hleg, hdec, Bool.false_eq_true, if_false] at h
          rcases bm with _ | bmv
          · simp at h
          · by_cases hmv : mv = bmv
            · simp [hmv] at h
            · simp only [hmv, if_false] at h
              have hc := bestDiffersBranch_cases p n cp ps
              rw [h] at hc
              simp at hc
  · rw [htb] at h
    rcases tbClassify_eq_some cfg p mv l htb with hl | hl <;> simp [hl] at h

/-- C2 counterexample: a book position with exactly one legal move is
labelled "Book", not "Best" — the book rule precedes the forced-move
rule. -/
theorem C2_counterexample :
    posBookForced.legalMoveCount = 1 ∧
    (get_accuracy cfgBook posBookForced 1 0 (some 1) (some 0) none).1 = "Book" ∧
    "Book" ≠ "Best" := by
  refine ⟨rfl, rfl, by decide⟩

/-- C2 (amended): when neither the tablebase nor the book rule fires and
scoreAfter is non-null, a position with exactly one legal move is
labelled "Best" regardless of either evaluation score. -/
theorem C2_amended (cfg : Config) (p : PosEnv) (n : Nat) (mv : Move)
    (bm : Option Move) (cp : Int) (ps : Option Int)
    (htb : tbClassify cfg p mv = none)
    (hbook : bookHit cfg p = false)
    (hleg : p.legalMoveCount = 1) :
    get_accuracy cfg p n mv bm (some cp) ps = ("Best", []) := by
  unfold get_accuracy
  rw [htb]
  simp [hbook, hleg]

/-- C2 witness: a forced move outside book and tablebase is "Best" even
with wildly decisive scores on both sides. -/
theorem C2_witness :
    get_accuracy wCfg posForced 2 5 none (some (-9000)) (some 9000) = ("Best", []) :=
  C2_amended wCfg posForced 2 5 none (-9000) (some 9000) rfl rfl rfl

/-- C3 counterexample: the classifier can return "Tablebase", which is
not a key of `init_summary_dict`, so `process_move` books such a move
under "-" — the defensive fallback does trigger. -/
theorem C3_counterexample :
    (process_move cfgTB posTB 7 1 none init_summary_dict).2.1 = "Tablebase" ∧
    "Tablebase" ∉ summaryKeys ∧
    (process_move cfgTB posTB 7 1 none init_summary_dict).1 "-" = 1 ∧
    (process_move cfgTB posTB 7 1 none init_summary_dict).1 "Tablebase" = 0 := by
  refine ⟨rfl, by decide, rfl, rfl⟩

/-- C3 (amended): every label the classifier can return other than
"Tablebase" is a key of `init_summary_dict`; for "Tablebase" the
fallback branch increments "-". -/
theorem C3_amended (cfg : Config) (p : PosEnv) (n : Nat) (mv : Move)
    (bm : Option Move) (ec ps : Option Int) (s : Summary) :
    ((get_accuracy cfg p n mv bm ec ps).1 = "Tablebase" ∨
      (get_accuracy cfg p n mv bm ec ps).1 ∈ summaryKeys) ∧
    "Tablebase" ∉ summaryKeys ∧
    tallyAdd s "Tablebase" = incr s "-" := by
  refine ⟨?_, by decide, by rfl⟩
  have hc := get_accuracy_label_cases cfg p n mv bm ec ps
  simp only [List.mem_cons, List.not_mem_nil, or_false] at hc
  rcases hc with h|h|h|h|h|h|h|h|h|h <;> simp [h, summaryKeys]

/-- C4: with `--depth 10` the per-move evaluation and the `prev_score`
evaluation are issued at depth 10, but the best-move lookup and the
rule-7 re-evaluation after the engine's best move are issued at the
hardcoded depth 15 — not at the configured depth. -/
theorem C4_depth_hardcoded :
    cfg10.depth = 10 ∧
    (analyze_game cfg10 [gmC4]).2.2.2 = [10, 15, 10] ∧
    (get_best_move_info cfg10 posC4).2 = [15] ∧
    (15 : Nat) ≠ 10 := by
  refine ⟨rfl, rfl, rfl, by decide⟩

/-- C5 counterexample: with `--book` absent argparse defaults to
"Human", `resolve_book_path` yields the bundled Human book, and when
that file exists a book position is still labelled "Book". -/
theorem C5_counterexample :
    argsNoBook.book = "Human" ∧
    cfgNoBook.bookPath = some "books/Human.bin" ∧
    (get_accuracy cfgNoBook posBookForced 1 0 none none none).1 = "Book" := by
  refine ⟨rfl, rfl, rfl⟩

/-- C5 (amended): absence of `--book` selects the built-in "Human" book
rather than disabling book classification; the book rule never fires
only when the resolved book file does not exist. -/
theorem C5_amended (cfg : Config) (p : PosEnv) (n : Nat) (mv : Move)
    (bm : Option Move) (ec ps : Option Int)
    (habsent : cfg.bookPath =
      resolve_book_path (some (parse_args "game.pgn" none none false).book))
    (hnoexist : cfg.bookPathExists = false) :
    cfg.bookPath = some "books/Human.bin" ∧
    (get_accuracy cfg p n mv bm ec ps).1 ≠ "Book" := by
  constructor
  · rw [habsent]; rfl
  · intro h
    have hb := book_label_needs_bookHit cfg p n mv bm ec ps h
    unfold bookHit at hb
    rw [if_neg (by simp [hnoexist])] at hb
    exact Bool.false_ne_true hb

/-- C5 witness: `--book` absent and the Human book file missing — no
move is ever labelled "Book". -/
theorem C5_witness :
    cfgNoBookMissing.bookPath = some "books/Human.bin" ∧
    (get_accuracy cfgNoBookMissing wPos 1 0 (some 1) (some 0) (some 10)).1 ≠ "Book" :=
  C5_amended cfgNoBookMissing wPos 1 0 (some 1) (some 0) (some 10) (by rfl) rfl

/-- C10: in the rule-7 branch with a null scoreBefore (no tablebase or
book match, non-null scoreAfter, more than one legal move, played move
differs from the best move, no mate-magnitude score), the classifier
returns "-" after the extra engine probe, computing no loss. -/
theorem C10_null_prev_unclassified (cfg : Config) (p : PosEnv) (n : Nat) (mv bm : Move)
    (cp : Int)
    (htb : tbClassify cfg p mv = none)
    (hbook : bookHit cfg p = false)
    (hleg : p.legalMoveCount ≠ 1)
    (hne : mv ≠ bm)
    (hmate : (p.bestReplyInfo 15).score.isMate = false)
    (hmag : ¬ (10000 < |cp|)) :
    get_accuracy cfg p n mv (some bm) (some cp) none = ("-", [15]) := by
  unfold get_accuracy
  rw [htb]
  simp only [hbook, Bool.false_eq_true, if_false]
  rw [if_neg hleg]
  simp only [decisiveBefore, Bool.false_eq_true, if_false]
  rw [if_neg hne]
  unfold bestDiffersBranch
  rw [if_neg (by simp [hmate, hmag])]

/-- C10 witness: played move 0 against best move 5 with scoreAfter 0 and
no scoreBefore yields "-". -/
theorem C10_witness :
    get_accuracy wCfg posC4 1 0 (some 5) (some 0) none = ("-", [15]) :=
  C10_null_prev_unclassified wCfg posC4 1 0 5 0 rfl rfl (by decide) (by decide)
    rfl (by norm_num [abs_le])

theorem sum_map_incr (l : List String) (s : Summary) (k : String) :
    (l.map (incr s k)).sum = (l.map s).sum + l.count k := by
  induction l with
  | nil => simp
  | cons a t ih =>
      simp only [List.map_cons, List.sum_cons, ih, List.count_cons]
      by_cases h : a = k <;> simp [incr, h] <;> omega

theorem tallyTotal_tallyAdd (s : Summary) (l : String) :
    tallyTotal (tallyAdd s l) = tallyTotal s + 1 := by
  unfold tallyAdd tallyTotal
  by_cases h : l ∈ summaryKeys
  · rw [if_pos h, sum_map_incr, List.count_eq_one_of_mem (by decide) h]
  · rw [if_neg h, sum_map_incr,
      List.count_eq_one_of_mem (by decide) (by decide : "-" ∈ summaryKeys)]

theorem process_move_fst (cfg : Config) (p : PosEnv) (mv : Move) (n : Nat)
    (prev : Option Int) (s : Summary) :
    (process_move cfg p mv n prev s).1 =
      tallyAdd s (process_move cfg p mv n prev s).2.1 := by
  unfold process_move
  cases htb : probe_tablebase cfg p <;> simp

theorem white_black_movesFrom (n len : Nat) :
    whiteMovesFrom n len + blackMovesFrom n len = len := by
  induction len generalizing n with
  | zero => simp [whiteMovesFrom, blackMovesFrom]
  | succ m ih =>
      have := ih (n + 1)
      simp only [whiteMovesFrom, blackMovesFrom]
      split <;> omega

theorem whiteMovesFrom_closed (len : Nat) :
    ∀ n, whiteMovesFrom n len = if n % 2 = 1 then (len + 1) / 2 else len / 2 := by
  induction len with
  | zero => intro n; simp [whiteMovesFrom]
  | succ m ih =>
      intro n
      simp only [whiteMovesFrom, ih (n + 1)]
      by_cases h : n % 2 = 1
      · have h2 : (n + 1) % 2 = 0 := by omega
        simp [h, h2]
        omega
      · have h2 : (n + 1) % 2 = 1 := by omega
        simp [h, h2]

theorem analyzeLoop_totals (cfg : Config) (moves : List GameMove) :
    ∀ (n : Nat) (prev : Option Int) (ws bs : Summary),
      tallyTotal (analyzeLoop cfg moves n prev ws bs).1 =
        tallyTotal ws + whiteMovesFrom n moves.length ∧
      tallyTotal (analyzeLoop cfg moves n prev ws bs).2.1 =
        tallyTotal bs + blackMovesFrom n moves.length := by
  induction moves with
  | nil => intro n prev ws bs; simp [analyzeLoop, whiteMovesFrom, blackMovesFrom]
  | cons gm rest ih =>
      intro n prev ws bs
      unfold analyzeLoop
      simp only [List.length_cons, whiteMovesFrom, blackMovesFrom]
      by_cases hn : n % 2 = 1
      · simp only [hn, if_true]
        have h := ih (n + 1) (get_eval_cp cfg gm.pos).1
          (process_move cfg gm.pos gm.mv n prev ws).1 bs
        rw [process_move_fst] at h ⊢
        rw [tallyTotal_tallyAdd] at h
        constructor
        · rw [h.1]; omega
        · rw [h.2]; omega
      · simp only [hn, if_false]
        have h := ih (n + 1) (get_eval_cp cfg gm.pos).1 ws
          (process_move cfg gm.pos gm.mv n prev bs).1
        rw [process_move_fst] at h ⊢
        rw [tallyTotal_tallyAdd] at h
        constructor
        · rw [h.1]; omega
        · rw [h.2]; omega

/-- C7: after the analysis loop each player's tally totals exactly the
number of moves that player made — (len+1)/2 for White (odd 1-based
plies) and len/2 for Black; each processed move adds exactly one to one
counter and no counter is ever decremented. -/
theorem C7_tally_invariant (cfg : Config) (moves : List GameMove) :
    tallyTotal (analyze_game cfg moves).1 = (moves.length + 1) / 2 ∧
    tallyTotal (analyze_game cfg moves).2.1 = moves.length / 2 ∧
    (∀ (s : Summary) (l : String),
      tallyTotal (tallyAdd s l) = tallyTotal s + 1 ∧ ∀ k, s k ≤ tallyAdd s l k) := by
  have h := analyzeLoop_totals cfg moves 1 none init_summary_dict init_summary_dict
  have h0 : tallyTotal init_summary_dict = 0 := by decide
  have hw := whiteMovesFrom_closed moves.length 1
  norm_num at hw
  have hb := white_black_movesFrom 1 moves.length
  refine ⟨?_, ?_, ?_⟩
  · unfold analyze_game
    rw [h.1, h0, hw]
    omega
  · unfold analyze_game
    rw [h.2, h0]
    rw [hw] at hb
    omega
  · intro s l
    refine ⟨tallyTotal_tallyAdd s l, fun k => ?_⟩
    unfold tallyAdd
    split <;> (simp only [incr]; split <;> omega)

/-- C8: `compute_overall_accuracy` is exactly the spec's weighted
average over the ten weighted labels ("Tablebase" and "-" excluded from
numerator and denominator alike), with "N/A" on a zero denominator, and
the tally {Best: 2, Blunder: 1} yields "60.0%". -/
theorem C8_overall_accuracy (s : Summary) :
    compute_overall_accuracy s = specAccuracy s ∧
    "Tablebase" ∉ weightedLabels ∧ "-" ∉ weightedLabels ∧
    compute_overall_accuracy tallyBestBlunder = "60.0%" := by
  refine ⟨?_, by decide, by decide, ?_⟩
  · unfold compute_overall_accuracy specAccuracy
    simp [accuracy_values, weightedLabels, specWeight]
  · unfold compute_overall_accuracy
    simp only [accuracy_values, List.map_cons, List.map_nil, List.sum_cons,
      List.sum_nil, tallyBestBlunder]
    simp
    norm_num [formatOneDec, Int.toNat_ofNat]
    rfl

theorem clamp300_idem (cp : Int) :
    max (-300) (min 300 (max (-300) (min 300 cp))) = max (-300) (min 300 cp) := by
  simp only [min_def, max_def]
  split_ifs <;> omega

theorem truncQ_le_ten (q : ℚ) (h0 : 0 ≤ q) (h1 : q ≤ 1) :
    truncQ (10 * q) ≤ 10 ∧ 0 ≤ truncQ (10 * q) := by
  unfold truncQ
  rw [if_pos (by positivity)]
  constructor
  · calc ⌊10 * q⌋ ≤ ⌊(10 : ℚ)⌋ := Int.floor_le_floor (by nlinarith)
    _ = 10 := by norm_num
  · positivity

theorem splitCells_sum (c : Int) : (splitCells c 20).1 + (splitCells c 20).2 = 20 := by
  simp only [splitCells, Nat.reduceDiv, Nat.cast_ofNat]
  set prog : ℚ := max (-1) (min 1 ((c : ℚ) / 100)) with hprog
  have h1 : prog ≤ 1 := max_le (by norm_num) (min_le_left _ _)
  have hm : (-1 : ℚ) ≤ prog := le_max_left _ _
  split_ifs with hp
  · have hb := truncQ_le_ten prog hp h1
    omega
  · have hp2 : prog < 0 := not_le.mp hp
    have hb := truncQ_le_ten (-prog) (by linarith) (by linarith)
    omega

theorem truncQ_hundred : truncQ (100 : ℚ) = 100 := by
  unfold truncQ
  rw [if_pos (by norm_num), show ((100 : ℚ)) = ((100 : Int) : ℚ) by norm_num,
    Int.floor_intCast]

theorem truncQ_neg_hundred : truncQ (-100 : ℚ) = -100 := by
  unfold truncQ
  rw [if_neg (by norm_num), show ((-100 : ℚ)) = ((-100 : Int) : ℚ) by norm_num,
    Int.ceil_intCast]

theorem truncQ_zero : truncQ (0 : ℚ) = 0 := by
  unfold truncQ
  rw [if_pos (by norm_num)]
  norm_num

/-- C9: the progress bar at width 20 factors through the clamp of the
score to [-300, 300], always splits exactly 20 cells, sends +300 to a
full white bar, -300 to a full black bar, 0 to an even split, and
renders a null score as the neutral half-filled bar. -/
theorem C9_progress_bar :
    (∀ cp : Int, progressBlocks cp 20 = progressBlocks (max (-300) (min 300 cp)) 20) ∧
    (∀ cp : Int, (progressBlocks cp 20).1 + (progressBlocks cp 20).2 = 20) ∧
    progressBlocks 300 20 = (20, 0) ∧
    progressBlocks (-300) 20 = (0, 20) ∧
    progressBlocks 0 20 = (10, 10) ∧
    get_progress_bar none 20 = "[yellow]██████████[/]          " := by
  refine ⟨?_, ?_, ?_, ?_, ?_, ?_⟩
  · intro cp
    simp only [progressBlocks]
    rw [clamp300_idem cp]
  · intro cp
    simp only [progressBlocks]
    exact splitCells_sum _
  · have h : max (-300 : Int) (min 300 300) = 300 := by norm_num
    simp only [progressBlocks, h]
    norm_num [truncQ_hundred]
    simp only [splitCells]
    norm_num
    unfold truncQ
    rw [if_pos (by norm_num)]
    norm_num
    decide
  · have h : max (-300 : Int) (min 300 (-300)) = -300 := by norm_num
    simp only [progressBlocks, h]
    norm_num [truncQ_neg_hundred]
    simp only [splitCells]
    norm_num
    unfold truncQ
    rw [if_pos (by norm_num)]
    norm_num
    decide
  · have h : max (-300 : Int) (min 300 0) = 0 := by norm_num
    simp only [progressBlocks, h]
    norm_num [truncQ_zero]
    simp only [splitCells]
    norm_num
    unfold truncQ
    rw [if_pos (by norm_num)]
    norm_num
  · rfl

theorem decisiveBefore_small (cp : Int) (h : |cp| ≤ 500) :
    decisiveBefore (some cp) = false := by
  simp only [decisiveBefore, decide_eq_false_iff_not, not_lt]
  rw [abs_div, div_le_iff₀ (by norm_num : (0 : ℚ) < |(100 : ℚ)|),
    show |(100 : ℚ)| = 100 by norm_num, show |(cp : ℚ)| = ((|cp| : Int) : ℚ) by
      rw [Int.cast_abs]]
  have h2 : ((|cp| : Int) : ℚ) ≤ 500 := by exact_mod_cast h
  linarith

theorem tallyAdd_best (s : Summary) : tallyAdd s "Best" = incr s "Best" := by
  unfold tallyAdd
  rw [if_pos (by decide)]

theorem process_move_best (cfg : Config) (gm : GameMove) (n : Nat)
    (prev : Option Int) (s : Summary) (cp : Int)
    (hpt : probe_tablebase cfg gm.pos = none)
    (htb : tbClassify cfg gm.pos gm.mv = none)
    (hbook : bookHit cfg gm.pos = false)
    (hscore : (gm.pos.engineInfo cfg.depth).score = RelScore.cp cp)
    (hpv : (gm.pos.engineInfo cfg.depth).pv.head? = some gm.mv)
    (hdec : decisiveBefore prev = false) :
    process_move cfg gm.pos gm.mv n prev s =
      (incr s "Best", "Best", [cfg.depth]) := by
  have hacc : get_accuracy cfg gm.pos n gm.mv (some gm.mv) (some cp) prev =
      ("Best", []) := by
    unfold get_accuracy
    rw [htb]
    simp only [hbook, Bool.false_eq_true, if_false]
    by_cases hleg : gm.pos.legalMoveCount = 1
    · simp [hleg]
    · simp [hleg, hdec]
  unfold process_move
  rw [hpt]
  simp only [hscore, hpv, RelScore.score]
  rw [hacc, tallyAdd_best]

theorem analyzeLoop_allBest (cfg : Config) (moves : List GameMove)
    (hall : ∀ gm ∈ moves, bestPlayedMove cfg gm) :
    ∀ (n : Nat) (prev : Option Int) (ws bs : Summary),
      decisiveBefore prev = false →
      (analyzeLoop cfg moves n prev ws bs).2.2.1 =
        List.replicate moves.length "Best" ∧
      (∀ k, (analyzeLoop cfg moves n prev ws bs).1 k =
        ws k + (if k = "Best" then whiteMovesFrom n moves.length else 0)) ∧
      (∀ k, (analyzeLoop cfg moves n prev ws bs).2.1 k =
        bs k + (if k = "Best" then blackMovesFrom n moves.length else 0)) := by
  induction moves with
  | nil =>
      intro n prev ws bs hdec
      simp [analyzeLoop, whiteMovesFrom, blackMovesFrom]
  | cons gm rest ih =>
      intro n prev ws bs hdec
      have hgm := hall gm (List.mem_cons_self _ _)
      have hrest : ∀ g ∈ rest, bestPlayedMove cfg g :=
        fun g hg => hall g (List.mem_cons_of_mem _ hg)
      obtain ⟨hpt, htb, hbook, ⟨cp, hscore, hcp⟩, hpv⟩ := hgm
      have hnp : (get_eval_cp cfg gm.pos).1 = some cp := by
        simp [get_eval_cp, hscore, RelScore.score]
      have hdec2 : decisiveBefore (get_eval_cp cfg gm.pos).1 = false := by
        rw [hnp]; exact decisiveBefore_small cp hcp
      unfold analyzeLoop
      by_cases hn : n % 2 = 1
      · simp only [hn, if_true]
        have hpm := process_move_best cfg gm n prev ws cp hpt htb hbook hscore hpv hdec
        simp only [hpm]
        have h := ih hrest (n + 1) (get_eval_cp cfg gm.pos).1 (incr ws "Best") bs hdec2
        refine ⟨?_, ?_, ?_⟩
        · rw [h.1]
          simp [List.replicate_succ]
        · intro k
          rw [h.2.1 k]
          by_cases hk : k = "Best" <;>
            simp [incr, hk, whiteMovesFrom, hn] <;> omega
        · intro k
          rw [h.2.2 k]
          by_cases hk : k = "Best" <;>
            simp [hk, blackMovesFrom, hn]
      · simp only [hn, if_false]
        have hpm := process_move_best cfg gm n prev bs cp hpt htb hbook hscore hpv hdec
        simp only [hpm]
        have h := ih hrest (n + 1) (get_eval_cp cfg gm.pos).1 ws (incr bs "Best") hdec2
        refine ⟨?_, ?_, ?_⟩
        · rw [h.1]
          simp [List.replicate_succ]
        · intro k
          rw [h.2.1 k]
          by_cases hk : k = "Best" <;>
            simp [hk, whiteMovesFrom, hn]
        · intro k
          rw [h.2.2 k]
          by_cases hk : k = "Best" <;>
            simp [incr, hk, blackMovesFrom, hn] <;> omega

theorem compute_acc_allBest (s : Summary) (w : Nat) (hw : 0 < w)
    (hs : ∀ k, s k = if k = "Best" then w else 0) :
    compute_overall_accuracy s = "90.0%" := by
  unfold compute_overall_accuracy
  simp only [accuracy_values, List.map_cons, List.map_nil, List.sum_cons,
    List.sum_nil, hs]
  simp
  rw [if_neg (by omega)]
  have hv : ((w : ℚ) * 90) / ((w : ℚ)) = 90 := by
    rw [mul_comm, mul_div_assoc, div_self (by exact_mod_cast hw.ne'), mul_one]
  rw [hv]
  unfold formatOneDec
  norm_num [Int.toNat_ofNat]
  rfl

theorem gameAllBest_hyp : ∀ gm ∈ gameAllBest, bestPlayedMove wCfg gm := by
  intro gm hgm
  simp only [gameAllBest, List.mem_cons, List.not_mem_nil, or_false] at hgm
  rcases hgm with h | h
  · subst h
    exact ⟨rfl, rfl, rfl, ⟨20, rfl, by decide⟩, rfl⟩
  · subst h
    exact ⟨rfl, rfl, rfl, ⟨-15, rfl, by decide⟩, rfl⟩

/-- C6 counterexample: a two-ply match in which both sides play the
engine's best move gets every move labelled "Best" but an overall
accuracy of 90.0% (weight of "Best"), not 100.0%. -/
theorem C6_counterexample :
    (analyze_game wCfg gameAllBest).2.2.1 = ["Best", "Best"] ∧
    compute_overall_accuracy (analyze_game wCfg gameAllBest).1 = "90.0%" ∧
    compute_overall_accuracy (analyze_game wCfg gameAllBest).2.1 = "90.0%" ∧
    "90.0%" ≠ "100.0%" := by
  have h := analyzeLoop_allBest wCfg gameAllBest gameAllBest_hyp 1 none
    init_summary_dict init_summary_dict rfl
  have hw2 : whiteMovesFrom 1 gameAllBest.length = 1 := by decide
  have hb2 : blackMovesFrom 1 gameAllBest.length = 1 := by decide
  unfold analyze_game
  refine ⟨by rw [h.1]; rfl, ?_, ?_, by decide⟩
  · exact compute_acc_allBest _ 1 (by norm_num)
      (fun k => by rw [h.2.1 k, hw2]; simp [init_summary_dict])
  · exact compute_acc_allBest _ 1 (by norm_num)
      (fun k => by rw [h.2.2 k, hb2]; simp [init_summary_dict])

/-- C6 (amended): in a match where every played move is the engine's
best move (and no tablebase, book, null-score or decisive-advantage
rule fires), every move is labelled "Best" and each player who moved
scores an overall accuracy of 90.0% — the weight of "Best" — rather
than 100.0%. -/
theorem C6_amended (cfg : Config) (moves : List GameMove)
    (hall : ∀ gm ∈ moves, bestPlayedMove cfg gm) :
    (analyze_game cfg moves).2.2.1 = List.replicate moves.length "Best" ∧
    (0 < whiteMovesFrom 1 moves.length →
      compute_overall_accuracy (analyze_game cfg moves).1 = "90.0%") ∧
    (0 < blackMovesFrom 1 moves.length →
      compute_overall_accuracy (analyze_game cfg moves).2.1 = "90.0%") := by
  have h := analyzeLoop_allBest cfg moves hall 1 none
    init_summary_dict init_summary_dict rfl
  unfold analyze_game
  refine ⟨h.1, fun hw => ?_, fun hb => ?_⟩
  · exact compute_acc_allBest _ _ hw
      (fun k => by rw [h.2.1 k]; simp [init_summary_dict])
  · exact compute_acc_allBest _ _ hb
      (fun k => by rw [h.2.2 k]; simp [init_summary_dict])

/-- C6 witness: the two-ply all-best match through the amended claim. -/
theorem C6_witness :
    (analyze_game wCfg gameAllBest).2.2.1 = List.replicate 2 "Best" ∧
    compute_overall_accuracy (analyze_game wCfg gameAllBest).1 = "90.0%" ∧
    compute_overall_accuracy (analyze_game wCfg gameAllBest).2.1 = "90.0%" := by
  have h := C6_amended wCfg gameAllBest gameAllBest_hyp
  exact ⟨h.1, h.2.1 (by decide), h.2.2 (by decide)⟩

end ChessEngine
